import Mathlib

/-!
# Domain-Checker: verification of the resolution-and-reconciliation engine

Shallow embedding of the core of the Domain-Checker repository
(`domain_checker/core.py`, `dig_client.py`, `propagation_checker.py`,
`cli.py`) together with proofs about the embedded functions.

Conventions of the embedding:
* Python strings are Lean `String`s; `str.split()` (whitespace split,
  empties discarded) is `pySplit`, `str.split('\n')` is `splitOnNl`,
  `' '.join` is `joinSpace`, `str.strip()` is `pyStrip`.
* Python `None`-able values are `Option`s; Python truthiness of an
  optional string (`None` and `""` are falsy) is tested explicitly.
* Timestamps are kept as opaque strings (only their presence is ever
  inspected by the code under verification); durations are rationals.
* Backend network calls are oracles (`Backends`): a call either returns
  a `DomainInfo` or raises, modelled by `Except String DomainInfo`.
* `asyncio.gather(..., return_exceptions=True)` returns one slot per
  task, in task-submission order, each slot holding either the task's
  value or the exception it raised; the per-task outcome is an oracle
  indexed by the task's position.
-/

set_option maxRecDepth 4000

namespace DomainChecker

/-! ## Python string primitives -/

/-- Whitespace for `str.split()` / `str.strip()`. -/
def isWS (c : Char) : Bool :=
  c = ' ' || c = '\t' || c = '\n' || c = '\r'

/-- Accumulator pass of whitespace tokenisation (`str.split()`):
runs of whitespace separate tokens, empty tokens are discarded. -/
def splitWordsAux : List Char → List Char → List (List Char)
  | [], acc => if acc.isEmpty then [] else [acc.reverse]
  | c :: rest, acc =>
    if isWS c then
      if acc.isEmpty then splitWordsAux rest []
      else acc.reverse :: splitWordsAux rest []
    else splitWordsAux rest (c :: acc)

/-- `str.split()` on a character list. -/
def splitWords (l : List Char) : List (List Char) :=
  splitWordsAux l []

/-- `' '.join` on character-list tokens. -/
def joinWords : List (List Char) → List Char
  | [] => []
  | [w] => w
  | w :: w' :: ws => w ++ ' ' :: joinWords (w' :: ws)

/-- Python `s.split()`. -/
def pySplit (s : String) : List String :=
  (splitWords s.toList).map (fun w => String.mk w)

/-- Python `' '.join(ts)`. -/
def joinSpace (ts : List String) : String :=
  String.mk (joinWords (ts.map String.toList))

/-- Strip leading and trailing whitespace from a character list. -/
def stripL (l : List Char) : List Char :=
  ((l.dropWhile isWS).reverse.dropWhile isWS).reverse

/-- Python `s.strip()`. -/
def pyStrip (s : String) : String :=
  String.mk (stripL s.toList)

/-- Accumulator pass of `str.split(sep)` for a single-character
separator: empties are kept, exactly as in Python. -/
def splitCharAux (sep : Char) : List Char → List Char → List (List Char)
  | [], acc => [acc.reverse]
  | c :: rest, acc =>
    if c = sep then acc.reverse :: splitCharAux sep rest []
    else splitCharAux sep rest (c :: acc)

/-- Python `s.split('\n')`. -/
def splitOnNl (s : String) : List String :=
  (splitCharAux '\n' s.toList []).map (fun w => String.mk w)

/-- Contiguous-substring search on character lists. -/
def isSubL (needle : List Char) : List Char → Bool
  | [] => needle.isEmpty
  | c :: rest => needle.isPrefixOf (c :: rest) || isSubL needle rest

/-- Python `needle in hay` (substring containment). -/
def pyIn (needle hay : String) : Bool :=
  isSubL needle.toList hay.toList

/-- Python `s.startswith(pre)`. -/
def pyStartsWith (pre s : String) : Bool :=
  pre.toList.isPrefixOf s.toList

/-- Python `s.endswith(suf)`. -/
def pyEndsWith (suf s : String) : Bool :=
  suf.toList.reverse.isPrefixOf s.toList.reverse

/-- Python `s.upper()` (ASCII, as produced by `dig`/user input). -/
def pyUpper (s : String) : String :=
  String.mk (s.toList.map Char.toUpper)

/-- Python `s.lower()` (ASCII, as produced by the backends). -/
def pyLower (s : String) : String :=
  String.mk (s.toList.map Char.toLower)

/-- Python truthiness of an optional string: `None` and `""` are falsy. -/
def optStrTruthy : Option String → Bool
  | none => false
  | some s => s ≠ ""

/-! ## RecordComparator: `normalize_dns_record` (cli.py:312-339) -/

/-- `normalize_dns_record` from `cli.py`: on lines of the standard
`<name> <ttl> IN <type> <value...>` form the TTL field is replaced by
the placeholder token `TTL`; every other line passes through unchanged.
(`not record_line.strip()` holds exactly when every character is
whitespace.) -/
def normalize_dns_record (record_line : String) : String :=
  if record_line.toList.all isWS then record_line
  else if record_line = "No DNS records found" ∨ record_line = "No records found" then
    record_line
  else
    let parts := pySplit record_line
    if 4 ≤ parts.length ∧ parts.get? 2 = some "IN" then
      joinSpace (parts.set 1 "TTL")
    else record_line

/-! ### Tokeniser lemmas -/

theorem splitWordsAux_word (w : List Char) (hw : ∀ c ∈ w, isWS c = false) :
    ∀ rest acc, splitWordsAux (w ++ rest) acc = splitWordsAux rest (w.reverse ++ acc) := by
  induction w with
  | nil => intro rest acc; simp
  | cons c w ih =>
    intro rest acc
    have hc : isWS c = false := hw c (by simp)
    have hw' : ∀ c' ∈ w, isWS c' = false := fun c' h => hw c' (by simp [h])
    have step : splitWordsAux (c :: (w ++ rest)) acc = splitWordsAux (w ++ rest) (c :: acc) := by
      simp [splitWordsAux, hc]
    rw [List.cons_append, step, ih hw' rest (c :: acc)]
    simp

theorem splitWords_join (ws : List (List Char))
    (h : ∀ w ∈ ws, w ≠ [] ∧ ∀ c ∈ w, isWS c = false) :
    splitWords (joinWords ws) = ws := by
  induction ws with
  | nil => simp [splitWords, joinWords, splitWordsAux]
  | cons w ws ih =>
    obtain ⟨hne, hns⟩ := h w (by simp)
    have h' : ∀ w' ∈ ws, w' ≠ [] ∧ ∀ c ∈ w', isWS c = false :=
      fun w' hw' => h w' (by simp [hw'])
    cases ws with
    | nil =>
      show splitWordsAux (joinWords [w]) [] = [w]
      have hj : joinWords [w] = w := rfl
      rw [hj]
      have h0 := splitWordsAux_word w hns [] []
      rw [List.append_nil, List.append_nil] at h0
      rw [h0]
      simp [splitWordsAux, List.isEmpty_iff, hne]
    | cons w' ws' =>
      show splitWordsAux (joinWords (w :: w' :: ws')) [] = w :: w' :: ws'
      have hj : joinWords (w :: w' :: ws') = w ++ ' ' :: joinWords (w' :: ws') := rfl
      rw [hj]
      have h0 := splitWordsAux_word w hns (' ' :: joinWords (w' :: ws')) []
      rw [List.append_nil] at h0
      rw [h0]
      have step : splitWordsAux (' ' :: joinWords (w' :: ws')) w.reverse
          = w.reverse.reverse :: splitWordsAux (joinWords (w' :: ws')) [] := by
        simp [splitWordsAux, isWS, List.isEmpty_iff, hne]
      rw [step, List.reverse_reverse]
      exact congrArg (List.cons w) (ih h')

theorem splitWordsAux_tokens (l : List Char) :
    ∀ acc, (∀ c ∈ acc, isWS c = false) →
      ∀ w ∈ splitWordsAux l acc, w ≠ [] ∧ ∀ c ∈ w, isWS c = false := by
  induction l with
  | nil =>
    intro acc hacc w hw
    by_cases h : acc.isEmpty
    · simp [splitWordsAux, h] at hw
    · simp only [splitWordsAux, h, if_false, Bool.false_eq_true, List.mem_singleton] at hw
      subst hw
      constructor
      · simp [List.isEmpty_iff] at h; simpa using h
      · intro c hc; exact hacc c (by simpa using hc)
  | cons c rest ih =>
    intro acc hacc w hw
    by_cases hws : isWS c
    · by_cases h : acc.isEmpty
      · simp only [splitWordsAux, hws, h, if_true] at hw
        exact ih [] (by simp) w hw
      · simp only [splitWordsAux, hws, h, if_true, Bool.false_eq_true, if_false,
          List.mem_cons] at hw
        rcases hw with hw | hw
        · subst hw
          constructor
          · simp [List.isEmpty_iff] at h; simpa using h
          · intro c' hc'; exact hacc c' (by simpa using hc')
        · exact ih [] (by simp) w hw
    · simp only [splitWordsAux, hws, Bool.false_eq_true, if_false] at hw
      refine ih (c :: acc) ?_ w hw
      intro c' hc'
      rcases List.mem_cons.mp hc' with rfl | h
      · simpa using hws
      · exact hacc c' h

theorem splitWords_tokens (l : List Char) :
    ∀ w ∈ splitWords l, w ≠ [] ∧ ∀ c ∈ w, isWS c = false :=
  splitWordsAux_tokens l [] (by simp)

theorem mk_toList (s : String) : String.mk s.toList = s := rfl

theorem toList_mk (l : List Char) : (String.mk l).toList = l := rfl

theorem pySplit_tokens (s : String) :
    ∀ t ∈ pySplit s, t ≠ "" ∧ ∀ c ∈ t.toList, isWS c = false := by
  intro t ht
  obtain ⟨w, hw, rfl⟩ := List.mem_map.mp ht
  obtain ⟨hne, hns⟩ := splitWords_tokens s.toList w hw
  constructor
  · intro h
    have : w = [] := by
      have := congrArg String.toList h
      simpa using this
    exact hne this
  · simpa using hns

theorem pySplit_joinSpace (ts : List String)
    (h : ∀ t ∈ ts, t ≠ "" ∧ ∀ c ∈ t.toList, isWS c = false) :
    pySplit (joinSpace ts) = ts := by
  unfold pySplit joinSpace
  have hlists : ∀ w ∈ ts.map String.toList, w ≠ [] ∧ ∀ c ∈ w, isWS c = false := by
    intro w hw
    obtain ⟨t, ht, rfl⟩ := List.mem_map.mp hw
    obtain ⟨hne, hns⟩ := h t ht
    refine ⟨?_, hns⟩
    intro hnil
    apply hne
    have := congrArg String.mk hnil
    simpa [mk_toList] using this
  rw [toList_mk]
  rw [splitWords_join (ts.map String.toList) hlists]
  rw [List.map_map]
  have hcomp : ((fun w => String.mk w) ∘ String.toList) = (id : String → String) :=
    funext mk_toList
  rw [hcomp, List.map_id]

theorem joinWords_head (w : List Char) (ws : List (List Char)) :
    ∃ t, joinWords (w :: ws) = w ++ t := by
  cases ws with
  | nil => exact ⟨[], by simp [joinWords]⟩
  | cons w' ws' => exact ⟨' ' :: joinWords (w' :: ws'), rfl⟩

/-- `normalize_dns_record` either passes its input through unchanged or,
on a standard-form line, rewrites the token list with the TTL slot set
to the placeholder. -/
theorem normalize_dns_record_spec (x : String) :
    normalize_dns_record x = x ∨
    ∃ p0 p1 p3 rest, pySplit x = p0 :: p1 :: "IN" :: p3 :: rest ∧
      normalize_dns_record x = joinSpace (p0 :: "TTL" :: "IN" :: p3 :: rest) := by
  unfold normalize_dns_record
  by_cases h1 : x.toList.all isWS = true
  · left; rw [if_pos h1]
  by_cases h2 : x = "No DNS records found" ∨ x = "No records found"
  · left; rw [if_neg h1, if_pos h2]
  by_cases h3 : 4 ≤ (pySplit x).length ∧ (pySplit x).get? 2 = some "IN"
  · right
    obtain ⟨hlen, hIN⟩ := h3
    rcases hsplit : pySplit x with _ | ⟨p0, _ | ⟨p1, _ | ⟨p2, _ | ⟨p3, rest⟩⟩⟩⟩ <;>
      rw [hsplit] at hlen <;> try simp at hlen
    have hp2 : p2 = "IN" := by rw [hsplit] at hIN; simpa using hIN
    subst hp2
    refine ⟨p0, p1, p3, rest, rfl, ?_⟩
    rw [if_neg h1, if_neg h2]
    show (if 4 ≤ (p0 :: p1 :: "IN" :: p3 :: rest).length ∧
        (p0 :: p1 :: "IN" :: p3 :: rest).get? 2 = some "IN" then
        joinSpace ((p0 :: p1 :: "IN" :: p3 :: rest).set 1 "TTL") else x)
      = joinSpace (p0 :: "TTL" :: "IN" :: p3 :: rest)
    rw [if_pos (⟨by simp, rfl⟩ : 4 ≤ (p0 :: p1 :: "IN" :: p3 :: rest).length ∧
        (p0 :: p1 :: "IN" :: p3 :: rest).get? 2 = some "IN")]
    rfl
  · left; rw [if_neg h1, if_neg h2, if_neg h3]

/-- A line whose whitespace-split token list already carries the TTL
placeholder, rebuilt by `' '.join`, is a fixed point of `normalize`. -/
theorem normalize_dns_record_fixpoint (p0 p3 : String) (rest : List String)
    (htok : ∀ t ∈ (p0 :: "TTL" :: "IN" :: p3 :: rest : List String),
      t ≠ "" ∧ ∀ c ∈ t.toList, isWS c = false) :
    normalize_dns_record (joinSpace (p0 :: "TTL" :: "IN" :: p3 :: rest))
      = joinSpace (p0 :: "TTL" :: "IN" :: p3 :: rest) := by
  set parts' : List String := p0 :: "TTL" :: "IN" :: p3 :: rest with hparts'
  set r := joinSpace parts' with hr
  have hsplit_r : pySplit r = parts' := pySplit_joinSpace parts' htok
  have hp0 := htok p0 (by rw [hparts']; simp)
  have hrnot : r.toList.all isWS = false := by
    obtain ⟨t, hjoin⟩ := joinWords_head p0.toList (("TTL" :: "IN" :: p3 :: rest).map String.toList)
    have hrl : r.toList = p0.toList ++ t := by
      rw [hr]
      show (String.mk (joinWords (parts'.map String.toList))).toList = p0.toList ++ t
      rw [toList_mk, hparts']
      simpa using hjoin
    rw [hrl]
    rcases List.exists_mem_of_ne_nil p0.toList
      (fun hc => hp0.1 (by have := congrArg String.mk hc; simpa [mk_toList] using this))
      with ⟨c, hc⟩
    have hcw := hp0.2 c hc
    simp only [List.all_append, Bool.and_eq_false_iff]
    left
    exact List.all_eq_false.mpr ⟨c, hc, by simp [hcw]⟩
  have hrnot' : ¬ (r.toList.all isWS = true) := by
    simp only [hrnot]; exact Bool.false_ne_true
  unfold normalize_dns_record
  by_cases hmark : r = "No DNS records found" ∨ r = "No records found"
  · rw [if_neg hrnot', if_pos hmark]
  · rw [if_neg hrnot', if_neg hmark, hsplit_r]
    have hc : 4 ≤ parts'.length ∧ parts'.get? 2 = some "IN" := by
      rw [hparts']; exact ⟨by simp, rfl⟩
    rw [if_pos hc]
    have hset : parts'.set 1 "TTL" = parts' := by rw [hparts']; rfl
    rw [hset]

/-- **C9.** `normalize` is idempotent:
`normalize(normalize(x)) == normalize(x)` for every input line `x`:
the standard-form branch replaces the TTL token, and re-splitting the
joined result reproduces the same token list with the placeholder
already in place; every other branch returns its input unchanged. -/
theorem normalize_dns_record_idempotent (x : String) :
    normalize_dns_record (normalize_dns_record x) = normalize_dns_record x := by
  rcases normalize_dns_record_spec x with h | ⟨p0, p1, p3, rest, hsplit, heq⟩
  · rw [h, h]
  · rw [heq]
    apply normalize_dns_record_fixpoint
    intro t ht
    rcases List.mem_cons.mp ht with rfl | ht
    · exact pySplit_tokens x t (by rw [hsplit]; simp)
    rcases List.mem_cons.mp ht with rfl | ht
    · exact ⟨by decide, by decide⟩
    · refine pySplit_tokens x t ?_
      rw [hsplit]
      rcases List.mem_cons.mp ht with rfl | ht
      · simp
      rcases List.mem_cons.mp ht with rfl | ht
      · simp
      · simp [ht]

/-! ## Data model (models.py) -/

/-- `DomainInfo` from `models.py`. Timestamps are opaque: the engine only
ever tests their presence (a Python `datetime` is always truthy), so they
are carried as strings. Contact maps are ordered key/value lists. -/
structure DomainInfo where
  domain : String
  registrar : Option String := none
  creation_date : Option String := none
  expiration_date : Option String := none
  updated_date : Option String := none
  status : List String := []
  name_servers : List String := []
  registrant : Option (List (String × String)) := none
  admin_contact : Option (List (String × String)) := none
  tech_contact : Option (List (String × String)) := none
  raw_data : Option String := none
  source : String
deriving DecidableEq

/-- `LookupResult` from `models.py`, together with the
`registration_status` attribute that `core.py` attaches to every result
before returning it (absent until assigned, hence an `Option`). -/
structure LookupResult where
  domain : String
  success : Bool
  data : Option DomainInfo := none
  error : Option String := none
  lookup_time : ℚ
  method : String
  registration_status : Option String := none
deriving DecidableEq

/-- `BulkLookupResult` from `models.py`. -/
structure BulkLookupResult where
  total_domains : Nat
  successful_lookups : Nat
  failed_lookups : Nat
  results : List LookupResult
  total_time : ℚ
  average_time_per_domain : ℚ
deriving DecidableEq

/-! ## RegistrationClassifier (core.py:324-384) -/

/-- "no match / not found" phrases tested against the error text. -/
def noMatchPhrases : List String :=
  ["no match", "not found", "no entries found",
   "no data found", "domain not found", "not registered",
   "no whois data available", "no information available"]

/-- positive-registration phrases tested against the raw payload. -/
def positivePhrases : List String :=
  ["registrar:", "creation date:", "expiration date:",
   "name server:", "status: active", "status: ok",
   "domain name:", "registry domain id:"]

/-- negative-registration phrases tested against the raw payload. -/
def negativePhrases : List String :=
  ["no match", "not found", "no entries found",
   "no data found", "domain not found", "not registered",
   "no whois data available", "no information available",
   "no data available"]

/-- `DomainChecker._determine_registration_status` from `core.py`.
The first guard is Python's `if not result.success or not result.data`. -/
def determineRegistrationStatus (result : LookupResult) : String :=
  match result.success, result.data with
  | false, _ => "not_registered"
  | true, none => "not_registered"
  | true, some di =>
    if optStrTruthy di.registrar then "registered"
    else if di.creation_date.isSome then "registered"
    else if di.expiration_date.isSome then "registered"
    else if di.name_servers ≠ [] then "registered"
    else if (match result.error with
        | some e => e ≠ "" && noMatchPhrases.any (fun p => pyIn p (pyLower e))
        | none => false) then "not_registered"
    else if (match di.raw_data with
        | some raw => raw ≠ "" && positivePhrases.any (fun p => pyIn p (pyLower raw))
        | none => false) then "registered"
    else if (match di.raw_data with
        | some raw => raw ≠ "" && negativePhrases.any (fun p => pyIn p (pyLower raw))
        | none => false) then "not_registered"
    else "possibly_registered"

/-- The classifier exactly as the claim words it: five rules in order,
first match wins, with rule 1 reading "`success = false` AND no record". -/
def specClassify (result : LookupResult) : String :=
  if result.success = false ∧ result.data = none then "not_registered"
  else if (match result.data with
      | some di => optStrTruthy di.registrar || di.creation_date.isSome ||
          di.expiration_date.isSome || !(di.name_servers.isEmpty)
      | none => false) then "registered"
  else if (match result.error with
      | some e => e ≠ "" && noMatchPhrases.any (fun p => pyIn p (pyLower e))
      | none => false) then "not_registered"
  else if (match result.data with
      | some di => (match di.raw_data with
          | some raw => raw ≠ "" && positivePhrases.any (fun p => pyIn p (pyLower raw))
          | none => false)
      | none => false) then "registered"
  else if (match result.data with
      | some di => (match di.raw_data with
          | some raw => raw ≠ "" && negativePhrases.any (fun p => pyIn p (pyLower raw))
          | none => false)
      | none => false) then "not_registered"
  else "possibly_registered"

/-- The amended rule list: identical to `specClassify` except that rule 1
reads "`success = false` OR no record", matching the code's
`if not result.success or not result.data`. -/
def specClassifyAmended (result : LookupResult) : String :=
  if result.success = false ∨ result.data = none then "not_registered"
  else if (match result.data with
      | some di => optStrTruthy di.registrar || di.creation_date.isSome ||
          di.expiration_date.isSome || !(di.name_servers.isEmpty)
      | none => false) then "registered"
  else if (match result.error with
      | some e => e ≠ "" && noMatchPhrases.any (fun p => pyIn p (pyLower e))
      | none => false) then "not_registered"
  else if (match result.data with
      | some di => (match di.raw_data with
          | some raw => raw ≠ "" && positivePhrases.any (fun p => pyIn p (pyLower raw))
          | none => false)
      | none => false) then "registered"
  else if (match result.data with
      | some di => (match di.raw_data with
          | some raw => raw ≠ "" && negativePhrases.any (fun p => pyIn p (pyLower raw))
          | none => false)
      | none => false) then "not_registered"
  else "possibly_registered"

/-- **C6 (counterexample).** The claim's rule list, as stated, disagrees
with the code: on an outcome with `success = true` and no record, rule 1
("`success = false` and no record") does not fire and rules 2–4 cannot,
so the claim predicts `possibly_registered`, while the code's guard is
`not success OR not data` and returns `not_registered`. -/
theorem classify_rule1_counterexample :
    determineRegistrationStatus
      { domain := "example.com", success := true, data := none, error := none,
        lookup_time := 0, method := "whois" } = "not_registered" ∧
    specClassify
      { domain := "example.com", success := true, data := none, error := none,
        lookup_time := 0, method := "whois" } = "possibly_registered" := by
  constructor <;> rfl

/-- **C6 (amended).** With rule 1 amended to "`success = false` OR no
record", the classifier is exactly the claimed ordered rule list: rules
2–5 and their order are as stated. (On every outcome `resolve` actually
produces the two rule-1 readings coincide, since failures carry no
record.) -/
theorem classify_eq_spec_rules (result : LookupResult) :
    determineRegistrationStatus result = specClassifyAmended result := by
  unfold determineRegistrationStatus specClassifyAmended
  match hs : result.success, hd : result.data with
  | false, _ => simp
  | true, none => simp
  | true, some di =>
    simp only [Bool.true_eq_false, false_or, reduceCtorEq, or_false, if_false]
    by_cases h1 : optStrTruthy di.registrar
    · simp [h1]
    by_cases h2 : di.creation_date.isSome
    · simp [h1, h2]
    by_cases h3 : di.expiration_date.isSome
    · simp [h1, h2, h3]
    by_cases h4 : di.name_servers = []
    · simp [h1, h2, h3, h4, List.isEmpty_iff]
    · simp [h1, h2, h3, h4, List.isEmpty_iff]

/-! ## ResolutionOrchestrator (core.py:42-145) -/

/-- Backend oracles: `rdap_client.lookup`, `whois_client.lookup`,
`dig_client.lookup`. A call either returns a `DomainInfo` or raises an
exception carrying `str(e)`. -/
structure Backends where
  rdap : String → Except String DomainInfo
  whois : String → Except String DomainInfo
  dig : String → String → Except String DomainInfo

/-- `result.registration_status = self._determine_registration_status(result)`. -/
def withStatus (r : LookupResult) : LookupResult :=
  { r with registration_status := some (determineRegistrationStatus r) }

/-- The `except Exception` handler of `lookup_domain`: absorb the raised
message into a failed result and classify it. -/
def failureResult (domain method : String) (t : ℚ) (e : String) : LookupResult :=
  withStatus
    { domain := domain, success := false, data := none, error := some e,
      lookup_time := t, method := method }

/-- The `try` body of `DomainChecker.lookup_domain`: dispatch on the
method string; `auto` tries RDAP and falls back to WHOIS when the RDAP
attempt raises or its payload is empty or wraps an error
(`domain_info.raw_data and "Error:" not in domain_info.raw_data`);
an unknown method raises `ValueError(f"Unknown method: {method}")`.
`t` is the wall time the surrounding code measures for the call. -/
def lookup_domain_body (B : Backends) (domain method dig_record_type : String)
    (t : ℚ) : Except String LookupResult :=
  if method = "auto" then
    -- try RDAP: keep its result only when it returned a non-empty,
    -- non-"Error:"-wrapping payload; otherwise (including when the RDAP
    -- attempt raised) fall back to WHOIS
    match B.rdap domain with
    | .ok di =>
      if (match di.raw_data with
          | some s => s ≠ "" && !(pyIn "Error:" s)
          | none => false) then
        .ok (withStatus
          { domain := domain, success := true, data := some di,
            lookup_time := t, method := "rdap" })
      else
        match B.whois domain with
        | .ok di' => .ok (withStatus
            { domain := domain, success := true, data := some di',
              lookup_time := t, method := "whois" })
        | .error e => .error e
    | .error _ =>
      match B.whois domain with
      | .ok di' => .ok (withStatus
          { domain := domain, success := true, data := some di',
            lookup_time := t, method := "whois" })
      | .error e => .error e
  else if method = "rdap" then
    match B.rdap domain with
    | .ok di => .ok (withStatus
        { domain := domain, success := true, data := some di,
          lookup_time := t, method := "rdap" })
    | .error e => .error e
  else if method = "whois" then
    match B.whois domain with
    | .ok di => .ok (withStatus
        { domain := domain, success := true, data := some di,
          lookup_time := t, method := "whois" })
    | .error e => .error e
  else if method = "dig" then
    match B.dig domain dig_record_type with
    | .ok di => .ok (withStatus
        { domain := domain, success := true, data := some di,
          lookup_time := t, method := "dig" })
    | .error e => .error e
  else .error ("Unknown method: " ++ method)

/-- `DomainChecker.lookup_domain`: the try body with every raised
exception absorbed into a failed, classified result. -/
def lookup_domain (B : Backends) (domain method dig_record_type : String)
    (t : ℚ) : LookupResult :=
  match lookup_domain_body B domain method dig_record_type t with
  | .ok r => r
  | .error e => failureResult domain method t e

theorem withStatus_domain (r : LookupResult) : (withStatus r).domain = r.domain := rfl

theorem withStatus_success (r : LookupResult) : (withStatus r).success = r.success := rfl

theorem withStatus_data (r : LookupResult) : (withStatus r).data = r.data := rfl

theorem withStatus_error (r : LookupResult) : (withStatus r).error = r.error := rfl

theorem withStatus_lookup_time (r : LookupResult) :
    (withStatus r).lookup_time = r.lookup_time := rfl

theorem withStatus_status_isSome (r : LookupResult) :
    (withStatus r).registration_status.isSome = true := rfl

/-- Every run of the try body ends in one of two shapes: a successful,
classified result carrying the backend's record, produced only for the
four recognised methods, or a raised exception, which is the
invalid-method error whenever the method is unrecognised. -/
theorem lookup_domain_body_shape (B : Backends) (domain method rt : String) (t : ℚ) :
    (∃ di m, lookup_domain_body B domain method rt t =
        .ok (withStatus
          { domain := domain, success := true, data := some di,
            error := none, lookup_time := t, method := m, registration_status := none }) ∧
      (method = "auto" ∨ method = "rdap" ∨ method = "whois" ∨ method = "dig"))
    ∨ (∃ e, lookup_domain_body B domain method rt t = .error e ∧
        (¬(method = "auto" ∨ method = "rdap" ∨ method = "whois" ∨ method = "dig")
          → e = "Unknown method: " ++ method)) := by
  unfold lookup_domain_body
  by_cases ha : method = "auto"
  · rw [if_pos ha]
    cases hr : B.rdap domain with
    | ok di =>
      by_cases hc : (match di.raw_data with
          | some s => s ≠ "" && !(pyIn "Error:" s)
          | none => false) = true
      · refine Or.inl ⟨di, "rdap", ?_, Or.inl ha⟩
        simp only [hc, if_true]
      · cases hw : B.whois domain with
        | ok di' =>
          refine Or.inl ⟨di', "whois", ?_, Or.inl ha⟩
          simp only [hc, if_false, Bool.false_eq_true]
        | error e =>
          refine Or.inr ⟨e, ?_, fun h => absurd (Or.inl ha) h⟩
          simp only [hc, if_false, Bool.false_eq_true]
    | error _ =>
      cases hw : B.whois domain with
      | ok di' => exact Or.inl ⟨di', "whois", rfl, Or.inl ha⟩
      | error e => exact Or.inr ⟨e, rfl, fun h => absurd (Or.inl ha) h⟩
  · rw [if_neg ha]
    by_cases hb : method = "rdap"
    · rw [if_pos hb]
      cases hr : B.rdap domain with
      | ok di => exact Or.inl ⟨di, "rdap", rfl, Or.inr (Or.inl hb)⟩
      | error e => exact Or.inr ⟨e, rfl, fun h => absurd (Or.inr (Or.inl hb)) h⟩
    · rw [if_neg hb]
      by_cases hw : method = "whois"
      · rw [if_pos hw]
        cases hww : B.whois domain with
        | ok di => exact Or.inl ⟨di, "whois", rfl, Or.inr (Or.inr (Or.inl hw))⟩
        | error e => exact Or.inr ⟨e, rfl, fun h => absurd (Or.inr (Or.inr (Or.inl hw))) h⟩
      · rw [if_neg hw]
        by_cases hd : method = "dig"
        · rw [if_pos hd]
          cases hdd : B.dig domain rt with
          | ok di => exact Or.inl ⟨di, "dig", rfl, Or.inr (Or.inr (Or.inr hd))⟩
          | error e => exact Or.inr ⟨e, rfl, fun h => absurd (Or.inr (Or.inr (Or.inr hd))) h⟩
        · rw [if_neg hd]
          exact Or.inr ⟨"Unknown method: " ++ method, rfl, fun _ => rfl⟩

/-- Companion shape lemma at the level of `lookup_domain` itself. -/
theorem lookup_domain_shape (B : Backends) (domain method rt : String) (t : ℚ) :
    (∃ di m, lookup_domain B domain method rt t =
        withStatus
          { domain := domain, success := true, data := some di,
            error := none, lookup_time := t, method := m, registration_status := none } ∧
      (method = "auto" ∨ method = "rdap" ∨ method = "whois" ∨ method = "dig"))
    ∨ (∃ e, lookup_domain B domain method rt t = failureResult domain method t e ∧
        (¬(method = "auto" ∨ method = "rdap" ∨ method = "whois" ∨ method = "dig")
          → e = "Unknown method: " ++ method)) := by
  rcases lookup_domain_body_shape B domain method rt t with
    ⟨di, m, hbody, hm⟩ | ⟨e, hbody, hu⟩
  · left; exact ⟨di, m, by unfold lookup_domain; rw [hbody], hm⟩
  · right; exact ⟨e, by unfold lookup_domain; rw [hbody], hu⟩

/-- **C1.** For every backend behaviour, every target, every method
string (recognised or not) and every record type, `lookup_domain` is a
total function into `LookupResult`: it never propagates a backend
failure or the invalid-method error — any such error is captured in the
outcome, with the success flag cleared, the error message recorded, the
elapsed time set to the measured wall time, and the registration-status
classification attached. -/
theorem lookup_domain_never_raises (B : Backends) (domain method rt : String) (t : ℚ) :
    ((lookup_domain B domain method rt t).success = true ∨
      ((lookup_domain B domain method rt t).success = false ∧
        (lookup_domain B domain method rt t).error.isSome = true))
    ∧ (lookup_domain B domain method rt t).registration_status.isSome = true
    ∧ (lookup_domain B domain method rt t).domain = domain
    ∧ (lookup_domain B domain method rt t).lookup_time = t
    ∧ (method = "auto" ∨ method = "rdap" ∨ method = "whois" ∨ method = "dig" ∨
        ((lookup_domain B domain method rt t).success = false ∧
          (lookup_domain B domain method rt t).error
            = some ("Unknown method: " ++ method))) := by
  rcases lookup_domain_shape B domain method rt t with
    ⟨di, m, h, hm⟩ | ⟨e, h, hu⟩
  · rw [h]
    refine ⟨Or.inl rfl, rfl, rfl, rfl, ?_⟩
    rcases hm with hm | hm | hm | hm
    · exact Or.inl hm
    · exact Or.inr (Or.inl hm)
    · exact Or.inr (Or.inr (Or.inl hm))
    · exact Or.inr (Or.inr (Or.inr (Or.inl hm)))
  · rw [h]
    refine ⟨Or.inr ⟨rfl, rfl⟩, rfl, rfl, rfl, ?_⟩
    by_cases hk : method = "auto" ∨ method = "rdap" ∨ method = "whois" ∨ method = "dig"
    · rcases hk with hk | hk | hk | hk
      · exact Or.inl hk
      · exact Or.inr (Or.inl hk)
      · exact Or.inr (Or.inr (Or.inl hk))
      · exact Or.inr (Or.inr (Or.inr (Or.inl hk)))
    · refine Or.inr (Or.inr (Or.inr (Or.inr ⟨rfl, ?_⟩)))
      rw [hu hk]
      rfl

/-- Usable-data test from the spec's wording, matching the check
`core.py` itself applies to the RDAP payload in auto mode: a payload is
usable when present, non-empty, and not a wrapped error message. -/
def usableData : Option String → Bool
  | none => false
  | some s => s ≠ "" && !(pyIn "Error:" s)

/-- Backend oracle whose DNS capability reports an internal failure the
way `dig_client.lookup` does: it returns (not raises) a `DomainInfo`
whose payload is `"Error: ..."`. -/
def digErrorBackends : Backends where
  rdap := fun _ => .error "unused"
  whois := fun _ => .error "unused"
  dig := fun d _ => .ok { domain := d, source := "dig", raw_data := some "Error: dig failed" }

/-- **C5 (counterexample).** A `dig` lookup whose backend absorbed its
own failure into an `Error:`-wrapping payload yields an outcome that is
marked successful and carries a record whose payload merely wraps an
error message — contradicting "the record field is present only if the
backend actually returned usable data". -/
theorem resolve_usable_data_counterexample :
    (lookup_domain digErrorBackends "example.com" "dig" "A" 0).success = true ∧
    ((lookup_domain digErrorBackends "example.com" "dig" "A" 0).data.map
      (fun di => usableData di.raw_data)) = some false := by
  constructor <;> rfl

/-- **C5 (amended).** Every outcome of `lookup_domain` satisfies: the
record field is present only if `success` is true, and the
registration-status classification is always present. (The usable-data
filter is applied only to the RDAP attempt of the `auto` method; the
single-method paths attach whatever record the backend returned.) -/
theorem resolve_record_invariant (B : Backends) (domain method rt : String) (t : ℚ) :
    ((lookup_domain B domain method rt t).data = none ∨
      (lookup_domain B domain method rt t).success = true)
    ∧ (lookup_domain B domain method rt t).registration_status.isSome = true := by
  rcases lookup_domain_shape B domain method rt t with
    ⟨di, m, h, hm⟩ | ⟨e, h, hu⟩
  · rw [h]; exact ⟨Or.inr rfl, rfl⟩
  · rw [h]; exact ⟨Or.inl rfl, rfl⟩

/-! ## BoundedConcurrencyRunner (core.py:147-204) -/

/-- The per-task outcome of `asyncio.gather(..., return_exceptions=True)`
over `lookup_with_semaphore(domain)` tasks, positionally: task `i` either
raises an unexpected exception (`fail i = some e`, outside the absorbing
handler of `lookup_domain`) or returns `lookup_domain`'s result. The
semaphore and the throttler only influence timing, which the oracle
`elapsed` abstracts. -/
def gatherExec (B : Backends) (fail : Nat → Option String) (elapsed : Nat → ℚ)
    (method rt : String) : Nat → List String → List (Except String LookupResult)
  | _, [] => []
  | i, d :: ds =>
    (match fail i with
      | some e => .error e
      | none => .ok (lookup_domain B d method rt (elapsed i)))
    :: gatherExec B fail elapsed method rt (i + 1) ds

/-- The exception-handling loop of `lookup_domains_bulk`: an exception
slot is converted to a failed, classified result for the domain at the
same index (`lookup_time = 0.0`), a result slot is kept as is. -/
def processSlot (method d : String) : Except String LookupResult → LookupResult
  | .error e =>
    withStatus
      { domain := d, success := false, data := none,
        error := some e, lookup_time := 0, method := method }
  | .ok r => r

/-- `DomainChecker.lookup_domains_bulk`: gather all tasks positionally,
absorb exception slots, and aggregate counts and timing
(`total_time` is the batch wall clock, an input of the time model). -/
def lookup_domains_bulk (B : Backends) (fail : Nat → Option String)
    (elapsed : Nat → ℚ) (domains : List String) (method rt : String)
    (total_time : ℚ) : BulkLookupResult :=
  let results := gatherExec B fail elapsed method rt 0 domains
  let processed := (domains.zip results).map (fun p => processSlot method p.1 p.2)
  let successful := (processed.filter (fun r => r.success)).length
  { total_domains := domains.length
    successful_lookups := successful
    failed_lookups := processed.length - successful
    results := processed
    total_time := total_time
    average_time_per_domain := if domains.isEmpty then 0 else total_time / domains.length }

theorem gatherExec_length (B : Backends) (fail : Nat → Option String)
    (elapsed : Nat → ℚ) (method rt : String) (domains : List String) :
    ∀ i, (gatherExec B fail elapsed method rt i domains).length = domains.length := by
  induction domains with
  | nil => intro i; rfl
  | cons d ds ih => intro i; simp [gatherExec, ih]

theorem processSlot_domain (B : Backends) (method rt d : String) (t : ℚ)
    (s : Option String) :
    (processSlot method d (match s with
      | some e => .error e
      | none => .ok (lookup_domain B d method rt t))).domain = d := by
  cases s with
  | none =>
    show (lookup_domain B d method rt t).domain = d
    rcases lookup_domain_shape B d method rt t with ⟨di, m, h, hm⟩ | ⟨e, h, hu⟩ <;>
      rw [h] <;> rfl
  | some e => rfl

/-- **C2.** `lookup_domains_bulk` returns exactly one outcome per input
target and the `i`-th outcome's target is the `i`-th input target, for
every backend behaviour and every pattern of per-task failures and
timings — i.e. regardless of the order in which the concurrent lookups
complete, because slots are positional. -/
theorem bulk_preserves_order (B : Backends) (fail : Nat → Option String)
    (elapsed : Nat → ℚ) (domains : List String) (method rt : String) (T : ℚ) :
    (lookup_domains_bulk B fail elapsed domains method rt T).results.map
      (fun r => r.domain) = domains := by
  show ((domains.zip (gatherExec B fail elapsed method rt 0 domains)).map
      (fun p => processSlot method p.1 p.2)).map (fun r => r.domain) = domains
  have key : ∀ (ds : List String) (i : Nat),
      ((ds.zip (gatherExec B fail elapsed method rt i ds)).map
        (fun p => processSlot method p.1 p.2)).map (fun r => r.domain) = ds := by
    intro ds
    induction ds with
    | nil => intro i; rfl
    | cons d ds ih =>
      intro i
      show (processSlot method d _).domain ::
        ((ds.zip (gatherExec B fail elapsed method rt (i + 1) ds)).map
          (fun p => processSlot method p.1 p.2)).map (fun r => r.domain) = d :: ds
      rw [processSlot_domain B method rt d (elapsed i) (fail i), ih (i + 1)]
  exact key domains 0

theorem bulk_results_get? (B : Backends) (fail : Nat → Option String)
    (elapsed : Nat → ℚ) (method rt : String) :
    ∀ (ds : List String) (i j : Nat),
      ((ds.zip (gatherExec B fail elapsed method rt i ds)).map
        (fun p => processSlot method p.1 p.2)).get? j
      = (ds.get? j).map (fun d => processSlot method d
          (match fail (i + j) with
            | some e => .error e
            | none => .ok (lookup_domain B d method rt (elapsed (i + j))))) := by
  intro ds
  induction ds with
  | nil => intro i j; rfl
  | cons d ds ih =>
    intro i j
    cases j with
    | zero => rfl
    | succ j =>
      show ((ds.zip (gatherExec B fail elapsed method rt (i + 1) ds)).map
        (fun p => processSlot method p.1 p.2)).get? j = _
      rw [ih (i + 1) j]
      have : i + 1 + j = i + (j + 1) := by omega
      rw [this]
      rfl

/-- **C3.** If the task for index `i` of a batch raises an unexpected
exception `e`, the batch still completes with one outcome per target,
the outcome at index `i` is a failure recording `e`, and the outcome at
every other index is unaffected — it is the same as under any other
failure/timing behaviour that agrees away from `i`. -/
theorem bulk_isolates_failures (B : Backends) (fail fail' : Nat → Option String)
    (elapsed elapsed' : Nat → ℚ) (domains : List String) (method rt : String)
    (T T' : ℚ) (i : Nat) (e : String)
    (hfail : fail i = some e)
    (hagree : ∀ j, j ≠ i → fail j = fail' j)
    (htagree : ∀ j, j ≠ i → elapsed j = elapsed' j) :
    (lookup_domains_bulk B fail elapsed domains method rt T).results.length
      = domains.length
    ∧ ((lookup_domains_bulk B fail elapsed domains method rt T).results.get? i).map
        (fun r => r.success) = (domains.get? i).map (fun _ => false)
    ∧ ((lookup_domains_bulk B fail elapsed domains method rt T).results.get? i).map
        (fun r => r.error) = (domains.get? i).map (fun _ => some e)
    ∧ ∀ j, j ≠ i →
        (lookup_domains_bulk B fail elapsed domains method rt T).results.get? j
        = (lookup_domains_bulk B fail' elapsed' domains method rt T').results.get? j := by
  refine ⟨?_, ?_, ?_, ?_⟩
  · show ((domains.zip (gatherExec B fail elapsed method rt 0 domains)).map
      (fun p => processSlot method p.1 p.2)).length = domains.length
    rw [List.length_map, List.length_zip, gatherExec_length]
    exact Nat.min_self _
  · rw [show (lookup_domains_bulk B fail elapsed domains method rt T).results
        = (domains.zip (gatherExec B fail elapsed method rt 0 domains)).map
          (fun p => processSlot method p.1 p.2) from rfl,
      bulk_results_get? B fail elapsed method rt domains 0 i]
    rw [show 0 + i = i from Nat.zero_add i, hfail]
    cases domains.get? i <;> rfl
  · rw [show (lookup_domains_bulk B fail elapsed domains method rt T).results
        = (domains.zip (gatherExec B fail elapsed method rt 0 domains)).map
          (fun p => processSlot method p.1 p.2) from rfl,
      bulk_results_get? B fail elapsed method rt domains 0 i]
    rw [show 0 + i = i from Nat.zero_add i, hfail]
    cases domains.get? i <;> rfl
  · intro j hj
    rw [show (lookup_domains_bulk B fail elapsed domains method rt T).results
        = (domains.zip (gatherExec B fail elapsed method rt 0 domains)).map
          (fun p => processSlot method p.1 p.2) from rfl,
      show (lookup_domains_bulk B fail' elapsed' domains method rt T').results
        = (domains.zip (gatherExec B fail' elapsed' method rt 0 domains)).map
          (fun p => processSlot method p.1 p.2) from rfl,
      bulk_results_get? B fail elapsed method rt domains 0 j,
      bulk_results_get? B fail' elapsed' method rt domains 0 j]
    rw [show 0 + j = j from Nat.zero_add j, hagree j hj, htagree j hj]

/-- **C3 (witness).** A two-target batch in which the second task raises
`"boom"`: the batch completes with two outcomes, the second is the
absorbed failure, and the first is what it would have been had the
second task not failed at all. -/
theorem bulk_isolates_failures_witness :
    (lookup_domains_bulk digErrorBackends
        (fun n => if n = 1 then some "boom" else none) (fun _ => 0)
        ["good.example", "bad.invalid"] "dig" "A" 0).results.length = 2
    ∧ ((lookup_domains_bulk digErrorBackends
        (fun n => if n = 1 then some "boom" else none) (fun _ => 0)
        ["good.example", "bad.invalid"] "dig" "A" 0).results.get? 1).map
          (fun r => r.success) = some false
    ∧ ((lookup_domains_bulk digErrorBackends
        (fun n => if n = 1 then some "boom" else none) (fun _ => 0)
        ["good.example", "bad.invalid"] "dig" "A" 0).results.get? 1).map
          (fun r => r.error) = some (some "boom")
    ∧ (lookup_domains_bulk digErrorBackends
        (fun n => if n = 1 then some "boom" else none) (fun _ => 0)
        ["good.example", "bad.invalid"] "dig" "A" 0).results.get? 0
      = (lookup_domains_bulk digErrorBackends (fun _ => none) (fun _ => 0)
        ["good.example", "bad.invalid"] "dig" "A" 7).results.get? 0 := by
  have h := bulk_isolates_failures digErrorBackends
    (fun n => if n = 1 then some "boom" else none) (fun _ => none)
    (fun _ => 0) (fun _ => 0) ["good.example", "bad.invalid"] "dig" "A" 0 7 1 "boom"
    (by decide)
    (by intro j hj; simp [hj])
    (by intro j hj; rfl)
  exact ⟨h.1, by rw [h.2.1]; rfl, by rw [h.2.2.1]; rfl, h.2.2.2 0 (by decide)⟩

/-! ## PropagationChecker (propagation_checker.py:12-87) -/

/-- `PropagationResult` from `propagation_checker.py` (the timestamp
field is omitted: nothing under verification reads it). -/
structure PropagationResult where
  resolver_name : String := ""
  resolver_ip : String := ""
  location : String := ""
  domain : String := ""
  record_type : String := ""
  resolved_ips : List String := []
  success : Bool
  error : Option String := none
  lookup_time : ℚ := 0
deriving DecidableEq

/-- `PropagationSummary` with the statistics its `__init__` computes. -/
structure PropagationSummary where
  domain : String
  record_type : String
  results : List PropagationResult
  total_time : ℚ
  total_resolvers : Nat
  successful : Nat
  failed : Nat
  unique_ips : Finset String
  fully_propagated : Bool
  propagation_percentage : ℚ
deriving DecidableEq

/-- Python `sorted` insertion step on strings. -/
def insertSorted (s : String) : List String → List String
  | [] => [s]
  | x :: xs => if s ≤ x then s :: x :: xs else x :: insertSorted s xs

/-- `tuple(sorted(result.resolved_ips))`: the dictionary key used to
bucket probes by their (duplicate-preserving) sorted value list. -/
def sortedKey (l : List String) : List String :=
  l.foldr insertSorted []

/-- `ip_counts[ip_key] = ip_counts.get(ip_key, 0) + 1` on an
association list. -/
def bucketAdd (key : List String) :
    List (List String × Nat) → List (List String × Nat)
  | [] => [(key, 1)]
  | (k, n) :: rest =>
    if k = key then (k, n + 1) :: rest else (k, n) :: bucketAdd key rest

/-- `max(ip_counts.values())` (the call site guards non-emptiness). -/
def maxCount (counts : List (List String × Nat)) : Nat :=
  counts.foldl (fun m p => max m p.2) 0

/-- `PropagationSummary.__init__`: derive all aggregate statistics from
the probe results, exactly as the Python constructor does. -/
def mkPropagationSummary (domain record_type : String)
    (results : List PropagationResult) (total_time : ℚ) : PropagationSummary :=
  let total_resolvers := results.length
  let successful := (results.filter (fun r => r.success)).length
  let unique_ips := results.foldl
    (fun acc r => if r.success then acc ∪ r.resolved_ips.toFinset else acc) ∅
  let fully_propagated :=
    match results.filter (fun r => r.success) with
    | [] => false
    | r0 :: rest =>
      (r0 :: rest).all (fun r => decide (r.resolved_ips.toFinset = r0.resolved_ips.toFinset))
  let propagation_percentage : ℚ :=
    if unique_ips ≠ ∅ ∧ 0 < successful then
      let ip_counts := results.foldl
        (fun acc r => if r.success then bucketAdd (sortedKey r.resolved_ips) acc else acc) []
      if ip_counts ≠ [] then
        ((maxCount ip_counts : ℚ) / (total_resolvers : ℚ)) * 100
      else 0
    else 0
  { domain := domain, record_type := record_type, results := results,
    total_time := total_time, total_resolvers := total_resolvers,
    successful := successful, failed := total_resolvers - successful,
    unique_ips := unique_ips, fully_propagated := fully_propagated,
    propagation_percentage := propagation_percentage }

/-- **C4 (counterexample).** A single successful probe that resolves to
the empty value set: all successful probes (trivially) agree, so
`fully_propagated = true`, but `unique_ips` is empty, so the percentage
branch is skipped and `propagation_percentage = 0`, not `100.0`. -/
theorem propagation_percentage_counterexample :
    (mkPropagationSummary "example.com" "A"
      [{ success := true }] 0).fully_propagated = true
    ∧ (mkPropagationSummary "example.com" "A"
      [{ success := true }] 0).propagation_percentage = 0
    ∧ ¬ (mkPropagationSummary "example.com" "A"
      [{ success := true }] 0).propagation_percentage = 100 := by
  refine ⟨rfl, rfl, ?_⟩
  intro h
  have : (0 : ℚ) = 100 := by
    calc (0 : ℚ) = (mkPropagationSummary "example.com" "A"
        [{ success := true }] 0).propagation_percentage := rfl
    _ = 100 := h
  norm_num at this

theorem propagation_unique_fold (v : List String) :
    ∀ (rs : List PropagationResult) (acc : Finset String),
      rs ≠ [] → (∀ r ∈ rs, r.success = true ∧ r.resolved_ips = v) →
      rs.foldl (fun acc r => if r.success then acc ∪ r.resolved_ips.toFinset else acc) acc
        = acc ∪ v.toFinset := by
  intro rs
  induction rs with
  | nil => intro acc h _; exact absurd rfl h
  | cons r rs ih =>
    intro acc _ hall
    obtain ⟨hs, hv⟩ := hall r (by simp)
    have step : (if r.success = true then acc ∪ r.resolved_ips.toFinset else acc)
        = acc ∪ v.toFinset := by
      rw [if_pos hs, hv]
    rw [List.foldl_cons, step]
    cases hrs : rs with
    | nil => rfl
    | cons r' rs' =>
      rw [← hrs,
        ih (acc ∪ v.toFinset) (by rw [hrs]; exact List.cons_ne_nil r' rs')
          (fun x hx => hall x (List.mem_cons_of_mem r hx)),
        Finset.union_assoc, Finset.union_self]

theorem propagation_bucket_fold (key : List String) :
    ∀ (rs : List PropagationResult) (m : Nat),
      (∀ r ∈ rs, r.success = true ∧ sortedKey r.resolved_ips = key) →
      rs.foldl
        (fun acc r => if r.success then bucketAdd (sortedKey r.resolved_ips) acc else acc)
        [(key, m)] = [(key, m + rs.length)] := by
  intro rs
  induction rs with
  | nil => intro m _; rfl
  | cons r rs ih =>
    intro m hall
    obtain ⟨hs, hk⟩ := hall r (by simp)
    have step : (if r.success = true then
        bucketAdd (sortedKey r.resolved_ips) [(key, m)] else [(key, m)])
        = [(key, m + 1)] := by
      rw [if_pos hs, hk]
      simp [bucketAdd]
    rw [List.foldl_cons, step,
      ih (m + 1) (fun x hx => hall x (List.mem_cons_of_mem r hx))]
    have : m + 1 + rs.length = m + (rs.length + 1) := by omega
    rw [this]
    rfl

/-- **C4 (amended).** The claimed implication holds once the situations
the code excludes from the percentage computation are ruled out: if
every probe of a report succeeds and every probe resolves to one and the
same non-empty value list, then the report is fully propagated **and**
its propagation percentage is exactly `100`. (With an all-empty agreeing
value set, or with failed probes in the panel, `fully_propagated` can be
`true` while the percentage is below `100`, because the percentage
divides the most common bucket's size by the total probe count and is
defined as `0` when no values were resolved at all.) -/
theorem propagation_fully_implies_100 (domain rt : String) (v : List String)
    (rs : List PropagationResult) (T : ℚ)
    (hne : rs ≠ []) (hv : v ≠ [])
    (hall : ∀ r ∈ rs, r.success = true ∧ r.resolved_ips = v) :
    (mkPropagationSummary domain rt rs T).fully_propagated = true
    ∧ (mkPropagationSummary domain rt rs T).propagation_percentage = 100 := by
  have hfilter : rs.filter (fun r => r.success) = rs :=
    List.filter_eq_self.mpr (fun r hr => (hall r hr).1)
  constructor
  · show (match rs.filter (fun r => r.success) with
      | [] => false
      | r0 :: rest =>
        (r0 :: rest).all (fun r => decide (r.resolved_ips.toFinset = r0.resolved_ips.toFinset)))
      = true
    rw [hfilter]
    cases hrs : rs with
    | nil => exact absurd hrs hne
    | cons r0 rest =>
      have h0 : r0.resolved_ips = v := (hall r0 (by rw [hrs]; simp)).2
      apply List.all_eq_true.mpr
      intro r hr
      have : r.resolved_ips = v := (hall r (by rw [hrs]; exact hr)).2
      simp [this, h0]
  · show (if (rs.foldl (fun acc r => if r.success then acc ∪ r.resolved_ips.toFinset else acc) ∅) ≠ ∅
        ∧ 0 < (rs.filter (fun r => r.success)).length then
        (if (rs.foldl (fun acc r =>
            if r.success then bucketAdd (sortedKey r.resolved_ips) acc else acc) []) ≠ [] then
          ((maxCount (rs.foldl (fun acc r =>
            if r.success then bucketAdd (sortedKey r.resolved_ips) acc else acc) []) : ℚ)
            / (rs.length : ℚ)) * 100
        else 0)
      else 0) = 100
    have hunique : rs.foldl
        (fun acc r => if r.success then acc ∪ r.resolved_ips.toFinset else acc) ∅
        = v.toFinset := by
      rw [propagation_unique_fold v rs ∅ hne hall]
      exact Finset.empty_union _
    have huniq_ne : v.toFinset ≠ (∅ : Finset String) := by
      cases v with
      | nil => exact absurd rfl hv
      | cons a v' =>
        intro h
        have : a ∈ (a :: v').toFinset := by simp
        rw [h] at this
        exact absurd this (Finset.not_mem_empty a)
    have hsucc : 0 < (rs.filter (fun r => r.success)).length := by
      rw [hfilter]
      cases hrs : rs with
      | nil => exact absurd hrs hne
      | cons r0 rest => simp
    rw [if_pos ⟨by rw [hunique]; exact huniq_ne, hsucc⟩]
    have hkey : ∀ r ∈ rs, r.success = true ∧ sortedKey r.resolved_ips = sortedKey v :=
      fun r hr => ⟨(hall r hr).1, by rw [(hall r hr).2]⟩
    have hbuckets : rs.foldl
        (fun acc r => if r.success then bucketAdd (sortedKey r.resolved_ips) acc else acc) []
        = [(sortedKey v, rs.length)] := by
      cases hrs : rs with
      | nil => exact absurd hrs hne
      | cons r0 rest =>
        have h0 := hkey r0 (by rw [hrs]; simp)
        have step : (if r0.success = true then
            bucketAdd (sortedKey r0.resolved_ips) [] else [])
            = [(sortedKey v, 1)] := by
          rw [if_pos h0.1, h0.2]
          rfl
        rw [List.foldl_cons, step,
          propagation_bucket_fold (sortedKey v) rest 1
            (fun x hx => hkey x (by rw [hrs]; exact List.mem_cons_of_mem r0 hx))]
        simp [Nat.add_comm]
    rw [hbuckets, if_pos (by simp : ([(sortedKey v, rs.length)] : List (List String × Nat)) ≠ [])]
    have hmax : maxCount [(sortedKey v, rs.length)] = rs.length := by
      show max 0 rs.length = rs.length
      exact Nat.zero_max rs.length
    rw [hmax]
    have hlen : (rs.length : ℚ) ≠ 0 :=
      Nat.cast_ne_zero.mpr (List.length_pos.mpr hne).ne'
    rw [div_self hlen, one_mul]

/-- **C4 (amended, witness).** Two successful probes agreeing on the
value list `["1.2.3.4"]`: the report is fully propagated with
percentage exactly `100`. -/
theorem propagation_fully_implies_100_witness :
    (mkPropagationSummary "example.com" "A"
      [{ success := true, resolved_ips := ["1.2.3.4"] },
       { success := true, resolved_ips := ["1.2.3.4"] }] 0).fully_propagated = true
    ∧ (mkPropagationSummary "example.com" "A"
      [{ success := true, resolved_ips := ["1.2.3.4"] },
       { success := true, resolved_ips := ["1.2.3.4"] }] 0).propagation_percentage = 100 :=
  propagation_fully_implies_100 "example.com" "A" ["1.2.3.4"]
    [{ success := true, resolved_ips := ["1.2.3.4"] },
     { success := true, resolved_ips := ["1.2.3.4"] }] 0
    (by decide) (by decide)
    (by intro r hr; rcases List.mem_cons.mp hr with rfl | hr
        · exact ⟨rfl, rfl⟩
        · rcases List.mem_cons.mp hr with rfl | hr
          · exact ⟨rfl, rfl⟩
          · exact absurd hr (List.not_mem_nil r))

/-! ## RecordComparator: `filter_records_by_type` (cli.py:342-375) -/

/-- The authoritative-answer check of `filter_records_by_type`: when a
`;;` header is present and its first `flags:` line carries no `aa` flag
(in any of the three textual positions the code tests), the answer is
not authoritative. -/
def nonAuthoritative (lines : List String) : Bool :=
  let header := lines.filter (fun l => pyStartsWith ";;" l)
  if header.isEmpty then false
  else
    let flags := header.filter (fun l => pyIn "flags:" l)
    match flags with
    | [] => false
    | f :: _ => (!pyIn " aa " f) && (!pyEndsWith " aa;" f) && (!pyIn " aa;" f)

/-- `[line.strip() for line in raw_data.strip().split('\n') if line.strip()]`. -/
def cleanLines (rd : String) : List String :=
  ((splitOnNl (pyStrip rd)).map pyStrip).filter (fun l => l ≠ "")

/-- The keep/skip decision of the record loop: standard
`name TTL IN TYPE value...` lines only; SOA lines are skipped for
non-SOA queries; otherwise keep when the wanted type is `ANY` or
matches the declared type. -/
def keepLine (eu : String) (line : String) : Bool :=
  match pySplit line with
  | _ :: _ :: p2 :: p3 :: _ =>
    if p2 = "IN" then
      if eu ≠ "SOA" ∧ p3 = "SOA" then false
      else decide (eu = "ANY" ∨ p3 = eu)
    else false
  | _ => false

/-- `filter_records_by_type` from `cli.py`: falsy raw data gives `[]`;
a non-authoritative header gives `[]`; generic no-records markers are
removed; the remaining lines pass through the keep/skip decision with
`expected_type.upper() if expected_type else ""`. -/
def filter_records_by_type : Option String → String → List String
  | none, _ => []
  | some rd, expected_type =>
    if rd = "" then []
    else
      let lines := cleanLines rd
      if nonAuthoritative lines then []
      else
        let lines2 := lines.filter
          (fun l => decide (l ∉ ["No DNS records found", "No records found"]))
        if lines2.isEmpty then []
        else
          let eu := if expected_type = "" then "" else pyUpper expected_type
          lines2.filter (keepLine eu)

/-- The declared type of an answer line, when it has one. -/
def declaredType (line : String) : Option String :=
  match pySplit line with
  | _ :: _ :: p2 :: p3 :: _ => if p2 = "IN" then some p3 else none
  | _ => none

/-- `filterByType` as §4.4 words it: split into lines, empty result for
a non-authoritative answer, drop SOA lines unless SOA was requested,
keep lines whose declared type equals the wanted type — the equality
check being waived for the wildcard (a line still needs a declared type
to be a record line at all). -/
def specFilterByType : Option String → String → List String
  | none, _ => []
  | some rd, expected_type =>
    if rd = "" then []
    else
      let lines := cleanLines rd
      if nonAuthoritative lines then []
      else
        let eu := if expected_type = "" then "" else pyUpper expected_type
        lines.filter (fun l =>
          match declaredType l with
          | some ty => (!(decide (ty = "SOA") && decide (eu ≠ "SOA")))
              && (decide (eu = "ANY") || decide (ty = eu))
          | none => false)

/-- The keep/skip decision agrees with the spec-worded line predicate. -/
theorem keepLine_eq_spec (eu l : String) :
    keepLine eu l = (match declaredType l with
      | some ty => (!(decide (ty = "SOA") && decide (eu ≠ "SOA")))
          && (decide (eu = "ANY") || decide (ty = eu))
      | none => false) := by
  unfold keepLine declaredType
  rcases hps : pySplit l with _ | ⟨a, _ | ⟨b, _ | ⟨p2, _ | ⟨p3, rest⟩⟩⟩⟩ <;> try rfl
  show (if p2 = "IN" then
      (if eu ≠ "SOA" ∧ p3 = "SOA" then false else decide (eu = "ANY" ∨ p3 = eu))
    else false)
    = (match (if p2 = "IN" then some p3 else none) with
      | some ty => (!(decide (ty = "SOA") && decide (eu ≠ "SOA")))
          && (decide (eu = "ANY") || decide (ty = eu))
      | none => false)
  by_cases h2 : p2 = "IN"
  · rw [if_pos h2, if_pos h2]
    by_cases hsoa : p3 = "SOA" <;> by_cases heu : eu = "SOA" <;>
      simp [hsoa, heu]
  · rw [if_neg h2, if_neg h2]

theorem keepLine_marker_false (eu : String) :
    keepLine eu "No DNS records found" = false ∧
    keepLine eu "No records found" = false := by
  constructor <;> rfl

/-- **C7.** `filter_records_by_type` behaves exactly as the spec's
`filterByType`: the empty list on a non-authoritative answer, otherwise
the answer's record lines whose declared type equals the wanted type,
with SOA lines dropped unless SOA was explicitly requested and with the
type-equality check waived for the `ANY` wildcard. (The marker-line
removal and the empty-list early return of the code are invisible here:
marker lines carry no declared type and are dropped by the type filter
as well.) -/
theorem filter_records_by_type_eq_spec (raw_data : Option String)
    (expected_type : String) :
    filter_records_by_type raw_data expected_type
      = specFilterByType raw_data expected_type := by
  cases raw_data with
  | none => rfl
  | some rd =>
    simp only [filter_records_by_type, specFilterByType]
    by_cases hrd : rd = ""
    · rw [if_pos hrd, if_pos hrd]
    rw [if_neg hrd, if_neg hrd]
    by_cases hauth : nonAuthoritative (cleanLines rd) = true
    · rw [if_pos hauth, if_pos hauth]
    rw [if_neg hauth, if_neg hauth]
    set eu := if expected_type = "" then "" else pyUpper expected_type with heu
    set lines := cleanLines rd with hlines
    have hpointwise : ∀ l ∈ lines,
        (keepLine eu l && decide (l ∉ ["No DNS records found", "No records found"]))
        = (match declaredType l with
          | some ty => (!(decide (ty = "SOA") && decide (eu ≠ "SOA")))
              && (decide (eu = "ANY") || decide (ty = eu))
          | none => false) := by
      intro l _
      rw [← keepLine_eq_spec]
      by_cases hk : keepLine eu l = true
      · have hnm : l ∉ ["No DNS records found", "No records found"] := by
          intro hmem
          rcases List.mem_cons.mp hmem with rfl | hmem
          · rw [(keepLine_marker_false eu).1] at hk; exact Bool.false_ne_true hk
          rcases List.mem_cons.mp hmem with rfl | hmem
          · rw [(keepLine_marker_false eu).2] at hk; exact Bool.false_ne_true hk
          · exact absurd hmem (List.not_mem_nil l)
        simp [hk, hnm]
      · simp [Bool.eq_false_iff.mpr hk]
    by_cases hempty : (lines.filter
        (fun l => decide (l ∉ ["No DNS records found", "No records found"]))).isEmpty = true
    · rw [if_pos hempty]
      have hallmark : ∀ l ∈ lines,
          ¬ (decide (l ∉ ["No DNS records found", "No records found"]) = true) := by
        rw [List.isEmpty_iff] at hempty
        intro l hl hkeep
        have : l ∈ lines.filter
            (fun l => decide (l ∉ ["No DNS records found", "No records found"])) :=
          List.mem_filter.mpr ⟨hl, hkeep⟩
        rw [hempty] at this
        exact absurd this (List.not_mem_nil l)
      symm
      apply List.filter_eq_nil_iff.mpr
      intro l hl
      intro hkeep
      apply hallmark l hl
      have hkeep' : keepLine eu l = true := by rw [keepLine_eq_spec]; exact hkeep
      simp only [decide_eq_true_eq]
      intro hmem
      rcases List.mem_cons.mp hmem with rfl | hmem
      · rw [(keepLine_marker_false eu).1] at hkeep'; exact Bool.false_ne_true hkeep'
      rcases List.mem_cons.mp hmem with rfl | hmem
      · rw [(keepLine_marker_false eu).2] at hkeep'; exact Bool.false_ne_true hkeep'
      · exact absurd hmem (List.not_mem_nil l)
    · rw [if_neg hempty]
      rw [List.filter_filter]
      exact List.filter_congr hpointwise

/-! ## RecordComparator: record-set comparison (cli.py:1290-1318) -/

/-- The record-set comparison step of the nameserver-comparison display:
filtered record sets are compared via their normalised images; only when
the normalised sets differ are the raw only-in-A / only-in-B sets
produced, and a pair with no raw data at all is a match outright. -/
def compareRecordSets (aRaw bRaw : Option String) (rt : String) :
    Finset String × Finset String :=
  let aRecords := filter_records_by_type aRaw rt
  let bRecords := filter_records_by_type bRaw rt
  if (!optStrTruthy aRaw && !optStrTruthy bRaw) then (∅, ∅)
  else if (aRecords.map normalize_dns_record).toFinset
      ≠ (bRecords.map normalize_dns_record).toFinset then
    (aRecords.toFinset \ bRecords.toFinset, bRecords.toFinset \ aRecords.toFinset)
  else (∅, ∅)

/-- **C8.** The comparison registers no discrepancy on TTL-only drift
and treats two empty filtered sets as matching: whenever the two
filtered record lists have equal images under `normalize` (in
particular, whenever they differ only in their TTL fields, since
`normalize` rewrites exactly the TTL field), both only-sets are empty;
and when both filtered sets are empty the comparison reports a match. -/
theorem compare_record_sets_ttl_insensitive (aRaw bRaw : Option String) (rt : String) :
    ((filter_records_by_type aRaw rt).map normalize_dns_record
        = (filter_records_by_type bRaw rt).map normalize_dns_record
      → compareRecordSets aRaw bRaw rt = (∅, ∅))
    ∧ (filter_records_by_type aRaw rt = [] → filter_records_by_type bRaw rt = []
      → compareRecordSets aRaw bRaw rt = (∅, ∅)) := by
  have main : ∀ (h : (filter_records_by_type aRaw rt).map normalize_dns_record
      = (filter_records_by_type bRaw rt).map normalize_dns_record),
      compareRecordSets aRaw bRaw rt = (∅, ∅) := by
    intro h
    unfold compareRecordSets
    by_cases hd : (!optStrTruthy aRaw && !optStrTruthy bRaw) = true
    · rw [if_pos hd]
    · rw [if_neg hd, if_neg (by rw [h]; exact fun hne => hne rfl)]
  exact ⟨main, fun ha hb => main (by rw [ha, hb])⟩

/-- **C8 (witness).** Two answers for the same A record differing only
in the TTL field (`300` vs `900`): the comparison reports no
discrepancy. -/
theorem compare_record_sets_ttl_insensitive_witness :
    compareRecordSets (some "a.com. 300 IN A 1.2.3.4")
      (some "a.com. 900 IN A 1.2.3.4") "A" = (∅, ∅)
    ∧ filter_records_by_type (some "a.com. 300 IN A 1.2.3.4") "A"
      = ["a.com. 300 IN A 1.2.3.4"] :=
  ⟨(compare_record_sets_ttl_insensitive (some "a.com. 300 IN A 1.2.3.4")
      (some "a.com. 900 IN A 1.2.3.4") "A").1 (by decide),
   by decide⟩

/-! ## DNS backend parsing (dig_client.py:178-325) -/

/-- Python `s.rstrip('.')`. -/
def pyRstripDot (s : String) : String :=
  String.mk ((s.toList.reverse.dropWhile (fun c => c = '.')).reverse)

/-- Fuel-indexed `str.replace(old, new)` (all occurrences, left to
right, non-overlapping); the call sites pass the string's length as
fuel, which suffices because the patterns replaced are non-empty. -/
def replaceFuel (old new : List Char) : Nat → List Char → List Char
  | _, [] => []
  | 0, s => s
  | fuel + 1, c :: rest =>
    if old.isPrefixOf (c :: rest) && !old.isEmpty then
      new ++ replaceFuel old new fuel ((c :: rest).drop old.length)
    else c :: replaceFuel old new fuel rest

/-- Python `s.replace(old, new)`. -/
def pyReplace (old new s : String) : String :=
  String.mk (replaceFuel old.toList new.toList s.toList.length s.toList)

/-- `line.replace("=== ", "").replace(" Records ===", "")`. -/
def stripSectionHeader (line : String) : String :=
  pyReplace " Records ===" "" (pyReplace "=== " "" line)

/-- Python `s.replace(".", "@", 1)` on character lists. -/
def replaceFirstDotL : List Char → List Char
  | [] => []
  | c :: rest => if c = '.' then '@' :: rest else c :: replaceFirstDotL rest

/-- Python `s.replace(".", "@", 1)`. -/
def replaceFirstDot (s : String) : String :=
  String.mk (replaceFirstDotL s.toList)

/-- A parsed answer record (`_parse_specific_record`'s dictionary; the
fallback form carries no name/TTL keys). -/
structure DigRecord where
  dom : Option String := none
  ttl : Option String := none
  rtype : String
  value : String
deriving DecidableEq

/-- `DigClient._parse_specific_record`: structured
`name TTL IN TYPE value...` lines are parsed field-wise; anything else
falls back to a bare value tagged with the queried type. -/
def parse_specific_record (line record_type : String) : Option DigRecord :=
  let line := pyStrip line
  if line = "" then none
  else
    match pySplit line with
    | p0 :: p1 :: p2 :: p3 :: rest =>
      if p2 = "IN" then
        some { dom := some (pyRstripDot p0), ttl := some p1,
               rtype := p3, value := joinSpace rest }
      else some { rtype := pyUpper record_type, value := line }
    | _ => some { rtype := pyUpper record_type, value := line }

/-- The line loop of `DigClient._parse_records`, with the running
section type (`=== X Records ===` headers switch it; they matter only
for `ANY` queries). -/
def parseRecordsGo (record_type : String) :
    List String → String → List DigRecord
  | [], _ => []
  | line :: rest, current =>
    if pyStrip line = "" then parseRecordsGo record_type rest current
    else if pyStartsWith "=== " line && pyEndsWith " Records ===" line then
      parseRecordsGo record_type rest (stripSectionHeader line)
    else
      match (if pyUpper record_type = "ANY"
          then parse_specific_record line current
          else parse_specific_record line record_type) with
      | some r => r :: parseRecordsGo record_type rest current
      | none => parseRecordsGo record_type rest current

/-- `DigClient._parse_records`. -/
def parse_records (dig_output record_type : String) : List DigRecord :=
  parseRecordsGo record_type (splitOnNl (pyStrip dig_output)) record_type

/-- `DigClient._parse_dig_data`: empty output becomes a bare
"No DNS records found" record; otherwise the parsed records populate
name servers (from the explicit authoritative list when present) and,
for `SOA`/`ANY` queries that found an SOA record, a synthesised
registrant contact; every purely registration-related field is left
empty. (The MX/A/AAAA/TXT record lists the source also extracts are
dead locals: they are never stored in the returned `DomainInfo`.) -/
def parse_dig_data (domain dig_output record_type : String)
    (auth_nameservers : List String) : DomainInfo :=
  if pyStrip dig_output = "" then
    { domain := domain, source := "dig", raw_data := some "No DNS records found" }
  else
    let records := parse_records dig_output record_type
    let rtU := pyUpper record_type
    let name_servers :=
      if auth_nameservers ≠ [] then auth_nameservers
      else if rtU = "NS" ∨ rtU = "ANY" then
        (records.filter (fun r => r.rtype = "NS")).map (fun r => r.value)
      else []
    let soa_record : Option String :=
      if rtU = "SOA" ∨ rtU = "ANY" then
        match records.filter (fun r => r.rtype = "SOA") with
        | [] => none
        | r :: _ => some r.value
      else none
    let registrant : Option (List (String × String)) :=
      match soa_record with
      | none => none
      | some soa =>
        match pySplit soa with
        | _ :: p1 :: _ =>
          some [("name", "DNS Administrator"),
                ("email", if p1.toList.contains '.' then replaceFirstDot p1 else p1)]
        | _ => none
    { domain := domain, registrar := none, creation_date := none,
      expiration_date := none, updated_date := none, status := [],
      name_servers := name_servers, registrant := registrant,
      admin_contact := none, tech_contact := none,
      raw_data := some dig_output, source := "dig" }

/-- Backend oracle whose DNS capability parses a fixed one-line SOA
answer through `parse_dig_data`, exactly as `dig_client.lookup` does for
a single-record-type query. -/
def soaBackends : Backends where
  rdap := fun _ => .error "unused"
  whois := fun _ => .error "unused"
  dig := fun d rt => .ok (parse_dig_data d
    "example.com. 3600 IN SOA ns1.example.com. hostmaster.example.com. 1 2 3 4" rt [])

/-- **C10 (counterexample).** A DNS lookup for the `SOA` record type
whose answer carries an SOA record: the resulting record's registrant
contact map is *not* empty — `_parse_dig_data` synthesises
`{"name": "DNS Administrator", "email": ...}` from the SOA contact
field, with the first dot of the contact turned into an `@`. -/
theorem dns_registrant_counterexample :
    (lookup_domain soaBackends "example.com" "dig" "SOA" 0).success = true ∧
    ((lookup_domain soaBackends "example.com" "dig" "SOA" 0).data.map
      (fun di => di.registrant))
      = some (some [("name", "DNS Administrator"),
                    ("email", "hostmaster@example.com.")]) := by
  constructor <;> rfl

/-- **C10 (amended).** For every DNS-backend parse, the registrar, the
creation/expiration/updated dates, the status list, and the admin and
tech contact maps are always empty; the registrant map is also empty for
every record type other than `SOA` and `ANY` (for those two, a
registrant may be synthesised from a found SOA record's contact field). -/
theorem parse_dig_data_registration_empty (domain out rt : String)
    (ns : List String) :
    (parse_dig_data domain out rt ns).registrar = none
    ∧ (parse_dig_data domain out rt ns).creation_date = none
    ∧ (parse_dig_data domain out rt ns).expiration_date = none
    ∧ (parse_dig_data domain out rt ns).updated_date = none
    ∧ (parse_dig_data domain out rt ns).status = []
    ∧ (parse_dig_data domain out rt ns).admin_contact = none
    ∧ (parse_dig_data domain out rt ns).tech_contact = none
    ∧ (¬(pyUpper rt = "SOA" ∨ pyUpper rt = "ANY")
        → (parse_dig_data domain out rt ns).registrant = none) := by
  unfold parse_dig_data
  by_cases hempty : pyStrip out = ""
  · rw [if_pos hempty]
    exact ⟨rfl, rfl, rfl, rfl, rfl, rfl, rfl, fun _ => rfl⟩
  · rw [if_neg hempty]
    refine ⟨rfl, rfl, rfl, rfl, rfl, rfl, rfl, ?_⟩
    intro hrt
    show (match (if pyUpper rt = "SOA" ∨ pyUpper rt = "ANY" then
        match (parse_records out rt).filter (fun r => r.rtype = "SOA") with
        | [] => none
        | r :: _ => some r.value
      else none : Option String) with
      | none => (none : Option (List (String × String)))
      | some soa =>
        match pySplit soa with
        | _ :: p1 :: _ =>
          some [("name", "DNS Administrator"),
                ("email", if p1.toList.contains '.' then replaceFirstDot p1 else p1)]
        | _ => none) = none
    rw [if_neg hrt]

/-- **C10 (amended, witness).** An `A`-record parse of a plain answer
line: every registration-specific field, the registrant included, is
empty. -/
theorem parse_dig_data_registration_empty_witness :
    (parse_dig_data "example.com" "example.com. 300 IN A 1.2.3.4" "A" []).registrar = none
    ∧ (parse_dig_data "example.com" "example.com. 300 IN A 1.2.3.4" "A" []).registrant = none :=
  have h := parse_dig_data_registration_empty "example.com"
    "example.com. 300 IN A 1.2.3.4" "A" []
  ⟨h.1, h.2.2.2.2.2.2.2 (by decide)⟩

end DomainChecker
